import Mathlib

/-!
Shallow embedding of the `shorust` URL-shortening service.

The SQLite table `urls (id text primary key, url text not null unique,
hits bigint default 0)` is embedded as a list of rows in insertion order;
the unique constraints are checked explicitly where the engine would
enforce them (`Db.add_url`).  `hits` starts at the schema default 0 and is
only ever incremented, so it is embedded as a `Nat`.  `rand::thread_rng`
sampled through the `Alphanumeric` distribution is embedded as a stream
`Nat → Fin 62` of draws from the 62-character alphanumeric charset.
Handlers in `main.rs` are embedded as state-passing functions
`Store → ... → HttpResponse × Store`.
-/

/-- One row of the `urls` table. -/
structure UrlRow where
  id : String
  url : String
  hits : Nat
  deriving DecidableEq, Repr

/-- The persisted state: the rows of the `urls` table, in insertion order. -/
abbrev Store := List UrlRow

namespace Db

/-- The charset of `rand::distributions::Alphanumeric`
(`A`-`Z`, `a`-`z`, `0`-`9`). -/
def alphanumCharset : List Char :=
  "ABCDEFGHIJKLMNOPQRSTUVWXYZabcdefghijklmnopqrstuvwxyz0123456789".toList

theorem alphanumCharset_length : alphanumCharset.length = 62 := by decide

/-- `db.rs` `generate_id`: take 6 samples from the alphanumeric
distribution and collect them into a string.  The random source is the
stream `g`. -/
def generate_id (g : Nat → Fin 62) : String :=
  String.mk ((List.range 6).map fun i =>
    alphanumCharset.get (Fin.cast alphanumCharset_length.symm (g i)))

/-- `db.rs` `get_url_by_id`:
`select url from urls where id = ? limit 1`. -/
def get_url_by_id (store : Store) (id : String) : Option String :=
  (store.find? fun r => r.id == id).map UrlRow.url

/-- `db.rs` `get_id_by_url`:
`select id from urls where url = ? limit 1`. -/
def get_id_by_url (store : Store) (url : String) : Option String :=
  (store.find? fun r => r.url == url).map UrlRow.id

/-- Storage-engine failure surfaced by `rusqlite`: the insert violates the
primary-key or unique constraint. -/
inductive SqlError where
  | constraintViolation
  deriving DecidableEq, Repr

/-- `db.rs` `add_url`: `insert into urls (id, url) values (?, ?)` with a
freshly generated id; the engine rejects the insert when the id collides
with an existing primary key or the url violates the unique constraint. -/
def add_url (store : Store) (g : Nat → Fin 62) (url : String) :
    Except SqlError (String × Store) :=
  let id := generate_id g
  if store.any fun r => r.id == id || r.url == url then
    .error .constraintViolation
  else
    .ok (id, store ++ [⟨id, url, 0⟩])

/-- The per-row effect of `update urls set hits = hits + 1 where id = ?`. -/
def hitRow (id : String) (r : UrlRow) : UrlRow :=
  if r.id == id then { r with hits := r.hits + 1 } else r

/-- `db.rs` `add_url_hit`: `update urls set hits = hits + 1 where id = ?`;
returns `Ok(())` regardless of how many rows were affected. -/
def add_url_hit (store : Store) (id : String) : Except SqlError Store :=
  .ok (store.map (hitRow id))

end Db

/-- The HTTP responses the service builds (`actix_web::HttpResponse`). -/
inductive HttpResponse where
  | found (location : String)
  | notFound
  | created (body : String)
  | badRequest (errors : List (String × String))
  | internalServerError (body : String)
  deriving DecidableEq, Repr

/-- The numeric status of each response the service builds. -/
def HttpResponse.status : HttpResponse → Nat
  | .found _ => 302
  | .notFound => 404
  | .created _ => 201
  | .badRequest _ => 400
  | .internalServerError _ => 500

/-- Modelled from the spec: the JSON serialization of the validation-error
map (done by `serde_json` inside `HttpResponse::json`, absent from
`src/`); rendered as a comma-separated field:code list. -/
def render_errors (errs : List (String × String)) : String :=
  String.intercalate "," (errs.map fun p => p.1 ++ ":" ++ p.2)

/-- The body of each response the service builds; `found` and `notFound`
are built with `.finish()`, i.e. an empty body. -/
def HttpResponse.body : HttpResponse → String
  | .found _ => ""
  | .notFound => ""
  | .created b => b
  | .badRequest errs => render_errors errs
  | .internalServerError b => b

/-- The `Location` header of a response, set only by `found`. -/
def HttpResponse.location : HttpResponse → Option String
  | .found l => some l
  | _ => none

/-- `errors.rs` `AppError`. -/
inductive AppError where
  | poolError
  | sqlError (e : Db.SqlError)
  | validationErrors (errs : List (String × String))
  deriving DecidableEq, Repr

/-- `errors.rs` `status_code`: 400 for validation errors, 500 otherwise. -/
def AppError.status_code : AppError → Nat
  | .validationErrors _ => 400
  | _ => 500

/-- `errors.rs` `error_response`: validation errors become a 400 carrying
the structured error list; everything else a generic 500. -/
def error_response : AppError → HttpResponse
  | .validationErrors e => .badRequest e
  | _ => .internalServerError "Internal server error."

/-- Split a character list at the first `://`, yielding the scheme part
and the remainder. -/
def splitScheme : List Char → Option (List Char × List Char)
  | ':' :: '/' :: '/' :: rest => some ([], rest)
  | c :: rest => (splitScheme rest).map fun p => (c :: p.1, p.2)
  | [] => none

/-- Modelled from the spec: the URL-syntax validator behind
`#[validate(url)]` is the external `validator` crate, absent from `src/`.
The spec requires the string to parse as a well-formed absolute URL
(scheme + host): a nonempty alphabetic scheme, the literal `://`, and a
nonempty host. -/
def is_valid_url (s : String) : Bool :=
  match splitScheme s.toList with
  | some (scheme, rest) =>
      !scheme.isEmpty && scheme.all Char.isAlpha &&
      !(rest.takeWhile fun c => c != '/').isEmpty
  | none => false

/-- `main.rs` `UrlPayload`: the single form field. -/
structure UrlPayload where
  url : String
  deriving DecidableEq, Repr

/-- `data.validate()`: the derived validator checks the `url` field against
the URL-syntax rule and reports a structured (field, code) failure list. -/
def UrlPayload.validate (p : UrlPayload) : Except (List (String × String)) Unit :=
  if is_valid_url p.url then .ok () else .error [("url", "url")]

/-- `main.rs` `get_url`: look the id up; `302 Found` with the stored url as
`Location` when present, else `404` with empty body.  The store is
returned unchanged: the handler only performs the read-only lookup. -/
def get_url (store : Store) (id : String) : HttpResponse × Store :=
  match Db.get_url_by_id store id with
  | some url => (.found url, store)
  | none => (.notFound, store)

/-- `main.rs` `add_url`: validate the payload; look up an existing id for
the url, inserting a fresh mapping only when none exists; increment the
hit counter of the resolved id; answer `201 Created` with body
`{root}/{id}`.  Errors surface through `error_response`. -/
def add_url (store : Store) (g : Nat → Fin 62) (root : String)
    (data : UrlPayload) : HttpResponse × Store :=
  match data.validate with
  | .error errs => (error_response (.validationErrors errs), store)
  | .ok _ =>
    match Db.get_id_by_url store data.url with
    | some id =>
      match Db.add_url_hit store id with
      | .ok s2 => (.created (root ++ "/" ++ id), s2)
      | .error e => (error_response (.sqlError e), store)
    | none =>
      match Db.add_url store g data.url with
      | .error e => (error_response (.sqlError e), store)
      | .ok (id, s1) =>
        match Db.add_url_hit s1 id with
        | .ok s2 => (.created (root ++ "/" ++ id), s2)
        | .error e => (error_response (.sqlError e), s1)

/-- Well-formedness maintained by the table's constraints: `id` is a
primary key and `url` is unique. -/
def Store.wf (s : Store) : Prop :=
  s.Pairwise fun a b => a.id ≠ b.id ∧ a.url ≠ b.url

instance (s : Store) : Decidable s.wf :=
  inferInstanceAs (Decidable (List.Pairwise _ s))

/-- The hits-erased view of the store: its `(id, url)` pairs in order. -/
def shape (s : Store) : List (String × String) := s.map fun r => (r.id, r.url)

/-- How many rows carry the url `u`. -/
def countUrl (s : Store) (u : String) : Nat := s.countP fun r => r.url == u

/-! ### Helper lemmas about the embedded store operations -/

theorem hitRow_id (j : String) (r : UrlRow) : (Db.hitRow j r).id = r.id := by
  unfold Db.hitRow; split <;> rfl

theorem hitRow_url (j : String) (r : UrlRow) : (Db.hitRow j r).url = r.url := by
  unfold Db.hitRow; split <;> rfl

theorem hits_le_hitRow (j : String) (r : UrlRow) :
    r.hits ≤ (Db.hitRow j r).hits := by
  unfold Db.hitRow; split
  · exact Nat.le_succ _
  · exact Nat.le_refl _

theorem get_id_by_url_hit (s : Store) (j u : String) :
    Db.get_id_by_url (s.map (Db.hitRow j)) u = Db.get_id_by_url s u := by
  unfold Db.get_id_by_url
  rw [List.find?_map]
  have hp : ((fun r : UrlRow => r.url == u) ∘ Db.hitRow j)
      = fun r : UrlRow => r.url == u := by
    funext r; simp [Function.comp, hitRow_url]
  rw [hp]
  cases s.find? fun r : UrlRow => r.url == u <;> simp [hitRow_id]

theorem get_url_by_id_hit (s : Store) (j i : String) :
    Db.get_url_by_id (s.map (Db.hitRow j)) i = Db.get_url_by_id s i := by
  unfold Db.get_url_by_id
  rw [List.find?_map]
  have hp : ((fun r : UrlRow => r.id == i) ∘ Db.hitRow j)
      = fun r : UrlRow => r.id == i := by
    funext r; simp [Function.comp, hitRow_id]
  rw [hp]
  cases s.find? fun r : UrlRow => r.id == i <;> simp [hitRow_url]

theorem countUrl_hit (s : Store) (j u : String) :
    countUrl (s.map (Db.hitRow j)) u = countUrl s u := by
  unfold countUrl
  rw [List.countP_map]
  congr 1
  funext r; simp [Function.comp, hitRow_url]

theorem countUrl_append (s t : Store) (u : String) :
    countUrl (s ++ t) u = countUrl s u + countUrl t u :=
  List.countP_append _ s t

theorem countUrl_eq_zero (s : Store) (u : String)
    (h : (s.find? fun r => r.url == u) = none) : countUrl s u = 0 := by
  unfold countUrl
  rw [List.countP_eq_zero]
  exact List.find?_eq_none.mp h

theorem countUrl_eq_one (s : Store) (u : String) (r : UrlRow) (hwf : s.wf)
    (h : (s.find? fun x => x.url == u) = some r) : countUrl s u = 1 := by
  induction s with
  | nil => simp at h
  | cons a t ih =>
    rw [Store.wf, List.pairwise_cons] at hwf
    unfold countUrl
    rw [List.countP_cons]
    by_cases ha : a.url = u
    · have hz : (t.countP fun x : UrlRow => x.url == u) = 0 := by
        rw [List.countP_eq_zero]
        intro b hb hbu
        exact (hwf.1 b hb).2 (ha.trans (beq_iff_eq.mp hbu).symm)
      simp [hz, ha]
    · rw [List.find?_cons_of_neg _ (by simp [ha])] at h
      have ht := ih hwf.2 h
      unfold countUrl at ht
      simp [ht, ha]

theorem find?_id_of_mem (s : Store) (hwf : s.wf) (r : UrlRow) (hr : r ∈ s) :
    (s.find? fun x => x.id == r.id) = some r := by
  induction s with
  | nil => cases hr
  | cons a t ih =>
    rw [Store.wf, List.pairwise_cons] at hwf
    rcases List.mem_cons.mp hr with h | h
    · subst h
      exact List.find?_cons_of_pos _ (beq_self_eq_true _)
    · have hne : (a.id == r.id) = false := by
        simp [(hwf.1 r h).1]
      rw [List.find?_cons_of_neg _ (by simp [hne])]
      exact ih hwf.2 h

theorem validate_ok (u : String) (hv : is_valid_url u = true) :
    UrlPayload.validate ⟨u⟩ = .ok () := by
  simp [UrlPayload.validate, hv]

theorem add_url_of_found (store : Store) (g : Nat → Fin 62) (root u id : String)
    (hv : is_valid_url u = true) (h : Db.get_id_by_url store u = some id) :
    add_url store g root ⟨u⟩
      = (.created (root ++ "/" ++ id), store.map (Db.hitRow id)) := by
  simp [add_url, UrlPayload.validate, hv, h, Db.add_url_hit]

theorem add_url_of_inserted (store : Store) (g : Nat → Fin 62) (root u : String)
    (hv : is_valid_url u = true) (hnone : Db.get_id_by_url store u = none)
    (hfresh : (store.any fun r => r.id == Db.generate_id g || r.url == u) = false) :
    add_url store g root ⟨u⟩
      = (.created (root ++ "/" ++ Db.generate_id g),
         (store ++ [UrlRow.mk (Db.generate_id g) u 0]).map (Db.hitRow (Db.generate_id g))) := by
  simp [add_url, UrlPayload.validate, hv, hnone, Db.add_url, hfresh, Db.add_url_hit]

theorem add_url_of_collision (store : Store) (g : Nat → Fin 62) (root u : String)
    (hv : is_valid_url u = true) (hnone : Db.get_id_by_url store u = none)
    (hcol : (store.any fun r => r.id == Db.generate_id g || r.url == u) = true) :
    add_url store g root ⟨u⟩
      = (.internalServerError "Internal server error.", store) := by
  simp [add_url, UrlPayload.validate, hv, hnone, Db.add_url, hcol, error_response]

theorem add_url_of_invalid (store : Store) (g : Nat → Fin 62) (root u : String)
    (hv : is_valid_url u = false) :
    add_url store g root ⟨u⟩ = (.badRequest [("url", "url")], store) := by
  simp [add_url, UrlPayload.validate, hv, error_response]

theorem add_url_created_inv (store : Store) (g : Nat → Fin 62)
    (root u b : String) (s1 : Store)
    (h : add_url store g root ⟨u⟩ = (.created b, s1)) :
    is_valid_url u = true ∧
    ((∃ id, Db.get_id_by_url store u = some id ∧ b = root ++ "/" ++ id ∧
        s1 = store.map (Db.hitRow id)) ∨
     (Db.get_id_by_url store u = none ∧
        (store.any fun r => r.id == Db.generate_id g || r.url == u) = false ∧
        b = root ++ "/" ++ Db.generate_id g ∧
        s1 = (store ++ [UrlRow.mk (Db.generate_id g) u 0]).map (Db.hitRow (Db.generate_id g)))) := by
  by_cases hv : is_valid_url u = true
  · refine ⟨hv, ?_⟩
    cases hl : Db.get_id_by_url store u with
    | some id =>
      left
      rw [add_url_of_found store g root u id hv hl] at h
      simp only [Prod.mk.injEq, HttpResponse.created.injEq] at h
      exact ⟨id, rfl, h.1.symm, h.2.symm⟩
    | none =>
      right
      cases hc : store.any fun r => r.id == Db.generate_id g || r.url == u with
      | true =>
        rw [add_url_of_collision store g root u hv hl hc] at h
        simp at h
      | false =>
        rw [add_url_of_inserted store g root u hv hl hc] at h
        simp only [Prod.mk.injEq, HttpResponse.created.injEq] at h
        exact ⟨rfl, rfl, h.1.symm, h.2.symm⟩
  · rw [add_url_of_invalid store g root u (Bool.eq_false_iff.mpr hv)] at h
    simp at h

/-! ### Claim theorems -/

/-- C4: for every identifier string `id`, GET `/{id}` responds with a 302
redirect whose target is the stored URL when `id` exists in the store, and
with a 404 not-found status and empty body when `id` does not exist. -/
theorem c4_resolve_redirect_or_404 (store : Store) (id : String) :
    (∀ u, Db.get_url_by_id store id = some u →
       get_url store id = (.found u, store) ∧
       (HttpResponse.found u).status = 302 ∧
       (HttpResponse.found u).location = some u) ∧
    (Db.get_url_by_id store id = none →
       get_url store id = (.notFound, store) ∧
       HttpResponse.status .notFound = 404 ∧
       HttpResponse.body .notFound = "") := by
  constructor
  · intro u h
    refine ⟨?_, rfl, rfl⟩
    simp [get_url, h]
  · intro h
    refine ⟨?_, rfl, rfl⟩
    simp [get_url, h]

theorem c4_witness :
    (get_url [UrlRow.mk "abc" "http://x.y" 0] "abc"
       = (.found "http://x.y", [UrlRow.mk "abc" "http://x.y" 0]) ∧
     (HttpResponse.found "http://x.y").status = 302 ∧
     (HttpResponse.found "http://x.y").location = some "http://x.y") ∧
    (get_url [UrlRow.mk "abc" "http://x.y" 0] "zzz"
       = (.notFound, [UrlRow.mk "abc" "http://x.y" 0]) ∧
     HttpResponse.status .notFound = 404 ∧
     HttpResponse.body .notFound = "") :=
  ⟨(c4_resolve_redirect_or_404 [UrlRow.mk "abc" "http://x.y" 0] "abc").1
      "http://x.y" (by decide),
   (c4_resolve_redirect_or_404 [UrlRow.mk "abc" "http://x.y" 0] "zzz").2 (by decide)⟩

/-- C5: for every submitted string that does not parse as a well-formed
absolute URL, create-mapping returns a 400 client error carrying the
structured per-field validation-failure list, and the store is left
unchanged (no row inserted, no hit counter modified). -/
theorem c5_malformed_rejected (store : Store) (g : Nat → Fin 62) (root s : String)
    (hinv : is_valid_url s = false) :
    add_url store g root ⟨s⟩ = (.badRequest [("url", "url")], store) ∧
    (HttpResponse.badRequest [("url", "url")]).status = 400 :=
  ⟨add_url_of_invalid store g root s hinv, rfl⟩

theorem c5_witness :
    is_valid_url "example.com" = false ∧
    (add_url [] (fun _ => 0) "http://localhost" ⟨"example.com"⟩
       = (.badRequest [("url", "url")], []) ∧
     (HttpResponse.badRequest [("url", "url")]).status = 400) :=
  ⟨by decide,
   c5_malformed_rejected [] (fun _ => 0) "http://localhost" "example.com" (by decide)⟩

/-- C6: `incrementHits` (`add_url_hit`) always returns success; when the id
exists the matching row's hit counter goes up by exactly 1 (id and url
untouched), when the id does not exist the store is left unchanged rather
than an error being reported. -/
theorem c6_add_url_hit_total (store : Store) (id : String) :
    ∃ s', Db.add_url_hit store id = .ok s' ∧
      ((∀ r ∈ store, r.id ≠ id) → s' = store) ∧
      (∀ r ∈ store, r.id = id → UrlRow.mk r.id r.url (r.hits + 1) ∈ s') ∧
      (∀ r ∈ store, r.id ≠ id → r ∈ s') := by
  refine ⟨store.map (Db.hitRow id), rfl, ?_, ?_, ?_⟩
  · intro hnone
    have hmap : store.map (Db.hitRow id) = store.map (fun r => r) := by
      apply List.map_congr_left
      intro r hr
      simp [Db.hitRow, hnone r hr]
    simpa using hmap
  · intro r hr hid
    have hrow : Db.hitRow id r = UrlRow.mk r.id r.url (r.hits + 1) := by
      simp [Db.hitRow, hid]
    exact hrow ▸ List.mem_map_of_mem _ hr
  · intro r hr hid
    have hrow : Db.hitRow id r = r := by
      simp [Db.hitRow, hid]
    exact hrow ▸ List.mem_map_of_mem _ hr

theorem c6_witness :
    ∃ s', Db.add_url_hit [UrlRow.mk "a" "http://x.y" 5] "zzz" = .ok s'
      ∧ s' = [UrlRow.mk "a" "http://x.y" 5] := by
  obtain ⟨s', hok, hun, _, _⟩ :=
    c6_add_url_hit_total [UrlRow.mk "a" "http://x.y" 5] "zzz"
  exact ⟨s', hok, hun (by decide)⟩

theorem alphanumCharset_isAlphanum :
    ∀ c ∈ Db.alphanumCharset, c.isAlphanum = true := by decide

/-- C8: every call to the identifier generator produces a string of exactly
6 characters, each drawn from the alphanumeric alphabet (A-Z, a-z, 0-9);
the generator is a function of the random stream alone, so no uniqueness
check against the store happens at generation time. -/
theorem c8_generate_id_length_alphabet (g : Nat → Fin 62) :
    (Db.generate_id g).length = 6 ∧
    ∀ c ∈ (Db.generate_id g).toList, c ∈ Db.alphanumCharset ∧ c.isAlphanum = true := by
  constructor
  · show ((List.range 6).map _).length = 6
    rw [List.length_map, List.length_range]
  · intro c hc
    have hc' : c ∈ (List.range 6).map fun i =>
        Db.alphanumCharset.get (Fin.cast Db.alphanumCharset_length.symm (g i)) := hc
    obtain ⟨i, _, rfl⟩ := List.mem_map.mp hc'
    refine ⟨List.get_mem _ _ _, ?_⟩
    exact alphanumCharset_isAlphanum _ (List.get_mem _ _ _)

theorem c8_witness :
    (Db.generate_id (fun _ => 0)).length = 6 ∧
    ('A' ∈ Db.alphanumCharset ∧ Char.isAlphanum 'A' = true) :=
  ⟨(c8_generate_id_length_alphabet (fun _ => 0)).1,
   (c8_generate_id_length_alphabet (fun _ => 0)).2 'A' (by decide)⟩

/-- C9: the resolve-and-redirect handler never modifies the store: the
state it returns is identical to the state it received, for every store
and identifier (in particular no hit counter is incremented). -/
theorem c9_resolve_read_only (store : Store) (id : String) :
    (get_url store id).2 = store := by
  unfold get_url
  cases Db.get_url_by_id store id <;> rfl

/-- C1: submitting the same well-formed URL `u` twice (no concurrency)
returns the same identifier both times, and after both calls the store
contains exactly one row whose url column equals `u`. -/
theorem c1_create_mapping_idempotent (store : Store) (g1 g2 : Nat → Fin 62)
    (root u b1 : String) (s1 : Store) (hwf : store.wf)
    (h1 : add_url store g1 root ⟨u⟩ = (.created b1, s1)) :
    ∃ id, b1 = root ++ "/" ++ id ∧
      ∃ s2, add_url s1 g2 root ⟨u⟩ = (.created b1, s2) ∧ countUrl s2 u = 1 := by
  obtain ⟨hv, hcase⟩ := add_url_created_inv store g1 root u b1 s1 h1
  rcases hcase with ⟨id, hl, hb, hs⟩ | ⟨hl, hc, hb, hs⟩
  · refine ⟨id, hb, ?_⟩
    have hl1 : Db.get_id_by_url s1 u = some id := by
      rw [hs, get_id_by_url_hit]; exact hl
    have h2 := add_url_of_found s1 g2 root u id hv hl1
    refine ⟨s1.map (Db.hitRow id), by rw [h2, hb], ?_⟩
    unfold Db.get_id_by_url at hl
    obtain ⟨r, hr, _⟩ := Option.map_eq_some'.mp hl
    have hcount : countUrl store u = 1 := countUrl_eq_one store u r hwf hr
    rw [countUrl_hit, hs, countUrl_hit, hcount]
  · refine ⟨Db.generate_id g1, hb, ?_⟩
    have hfind : (store.find? fun r : UrlRow => r.url == u) = none := by
      unfold Db.get_id_by_url at hl
      exact Option.map_eq_none'.mp hl
    have hl1 : Db.get_id_by_url s1 u = some (Db.generate_id g1) := by
      rw [hs, get_id_by_url_hit]
      unfold Db.get_id_by_url
      have hone : (List.find? (fun r : UrlRow => r.url == u)
            [UrlRow.mk (Db.generate_id g1) u 0])
          = some (UrlRow.mk (Db.generate_id g1) u 0) :=
        List.find?_cons_of_pos _ (beq_self_eq_true u)
      rw [List.find?_append, hfind, Option.none_or, hone]
      rfl
    have h2 := add_url_of_found s1 g2 root u (Db.generate_id g1) hv hl1
    refine ⟨s1.map (Db.hitRow (Db.generate_id g1)), by rw [h2, hb], ?_⟩
    rw [countUrl_hit, hs, countUrl_hit, countUrl_append,
        countUrl_eq_zero store u hfind]
    simp [countUrl]

theorem c1_witness :
    ∃ id, "http://localhost/AAAAAA" = "http://localhost" ++ "/" ++ id ∧
      ∃ s2, add_url [UrlRow.mk "AAAAAA" "http://a.b" 1] (fun _ => 1)
            "http://localhost" ⟨"http://a.b"⟩
          = (.created "http://localhost/AAAAAA", s2) ∧ countUrl s2 "http://a.b" = 1 :=
  c1_create_mapping_idempotent [] (fun _ => 0) (fun _ => 1) "http://localhost"
    "http://a.b" "http://localhost/AAAAAA" [UrlRow.mk "AAAAAA" "http://a.b" 1]
    (by decide) (by decide)

/-- C2: for every identifier returned in the body of a successful
create-mapping call for URL `u`, a subsequent GET `/{id}` (no intervening
writes) redirects to exactly `u`. -/
theorem c2_create_then_redirect (store : Store) (g : Nat → Fin 62)
    (root u b : String) (s1 : Store) (hwf : store.wf)
    (h : add_url store g root ⟨u⟩ = (.created b, s1)) :
    ∃ id, b = root ++ "/" ++ id ∧ get_url s1 id = (.found u, s1) ∧
      (HttpResponse.found u).status = 302 ∧
      (HttpResponse.found u).location = some u := by
  obtain ⟨hv, hcase⟩ := add_url_created_inv store g root u b s1 h
  rcases hcase with ⟨id, hl, hb, hs⟩ | ⟨hl, hc, hb, hs⟩
  · refine ⟨id, hb, ?_, rfl, rfl⟩
    unfold Db.get_id_by_url at hl
    obtain ⟨r, hr, hrid⟩ := Option.map_eq_some'.mp hl
    have hpr := List.find?_some hr
    have hru : r.url = u := beq_iff_eq.mp hpr
    have hmem : r ∈ store := List.mem_of_find?_eq_some hr
    have hbyid : Db.get_url_by_id store id = some u := by
      unfold Db.get_url_by_id
      rw [← hrid, find?_id_of_mem store hwf r hmem]
      simp [hru]
    have hbyid1 : Db.get_url_by_id s1 id = some u := by
      rw [hs, get_url_by_id_hit]; exact hbyid
    simp [get_url, hbyid1]
  · refine ⟨Db.generate_id g, hb, ?_, rfl, rfl⟩
    have hany := List.any_eq_false.mp hc
    have hfindid : (store.find? fun x : UrlRow => x.id == Db.generate_id g) = none := by
      rw [List.find?_eq_none]
      intro x hx hxe
      exact hany x hx (by simp [hxe])
    have hbyid1 : Db.get_url_by_id s1 (Db.generate_id g) = some u := by
      rw [hs, get_url_by_id_hit]
      unfold Db.get_url_by_id
      have hone : (List.find? (fun r : UrlRow => r.id == Db.generate_id g)
            [UrlRow.mk (Db.generate_id g) u 0])
          = some (UrlRow.mk (Db.generate_id g) u 0) :=
        List.find?_cons_of_pos _ (beq_self_eq_true (Db.generate_id g))
      rw [List.find?_append, hfindid, Option.none_or, hone]
      rfl
    simp [get_url, hbyid1]

theorem c2_witness :
    ∃ id, "http://localhost/AAAAAA" = "http://localhost" ++ "/" ++ id ∧
      get_url [UrlRow.mk "AAAAAA" "http://a.b" 1] id
          = (.found "http://a.b", [UrlRow.mk "AAAAAA" "http://a.b" 1]) ∧
      (HttpResponse.found "http://a.b").status = 302 ∧
      (HttpResponse.found "http://a.b").location = some "http://a.b" :=
  c2_create_then_redirect [] (fun _ => 0) "http://localhost" "http://a.b"
    "http://localhost/AAAAAA" [UrlRow.mk "AAAAAA" "http://a.b" 1]
    (by decide) (by decide)

/-- C3: for every valid submitted URL the create-mapping handler first
looks up an existing identifier, inserts a new mapping only if none
exists, then increments the hit counter of the resolved identifier, and
responds 201 Created with body exactly `root ++ "/" ++ id`; a storage
failure on the insert surfaces as the generic 500 instead. -/
theorem c3_create_flow (store : Store) (g : Nat → Fin 62) (root u : String)
    (hv : is_valid_url u = true) :
    (∀ id, Db.get_id_by_url store u = some id →
       add_url store g root ⟨u⟩
         = (.created (root ++ "/" ++ id), store.map (Db.hitRow id)) ∧
       (HttpResponse.created (root ++ "/" ++ id)).status = 201) ∧
    (Db.get_id_by_url store u = none →
       (∀ id s', Db.add_url store g u = .ok (id, s') →
          add_url store g root ⟨u⟩
            = (.created (root ++ "/" ++ id), s'.map (Db.hitRow id)) ∧
          (HttpResponse.created (root ++ "/" ++ id)).status = 201) ∧
       (∀ e, Db.add_url store g u = .error e →
          add_url store g root ⟨u⟩ = (error_response (.sqlError e), store))) := by
  refine ⟨?_, ?_⟩
  · intro id hl
    exact ⟨add_url_of_found store g root u id hv hl, rfl⟩
  · intro hl
    constructor
    · intro id s' hok
      unfold Db.add_url at hok
      by_cases hc : (store.any fun r => r.id == Db.generate_id g || r.url == u) = true
      · simp [hc] at hok
      · simp only [hc, if_false, Bool.false_eq_true, ite_false,
          Except.ok.injEq, Prod.mk.injEq] at hok
        obtain ⟨hid, hs⟩ := hok
        subst hid
        subst hs
        exact ⟨add_url_of_inserted store g root u hv hl
          (Bool.eq_false_iff.mpr hc), rfl⟩
    · intro e hok
      unfold Db.add_url at hok
      by_cases hc : (store.any fun r => r.id == Db.generate_id g || r.url == u) = true
      · cases e
        simpa [error_response] using add_url_of_collision store g root u hv hl hc
      · simp [hc] at hok

theorem c3_witness :
    (add_url [] (fun _ => 0) "http://localhost" ⟨"http://a.b"⟩
       = (.created ("http://localhost" ++ "/" ++ "AAAAAA"),
          [UrlRow.mk "AAAAAA" "http://a.b" 0].map (Db.hitRow "AAAAAA")) ∧
     (HttpResponse.created ("http://localhost" ++ "/" ++ "AAAAAA")).status = 201) :=
  ((c3_create_flow [] (fun _ => 0) "http://localhost" "http://a.b" (by decide)).2
     (by decide)).1 "AAAAAA" [UrlRow.mk "AAAAAA" "http://a.b" 0] (by rfl)

/-- C7: every store operation preserves the data-model invariants: an
insert only appends a fresh row (hits 0) leaving all existing rows
untouched and keeping ids and urls unique; a hit increment preserves
length, every row's id and url, and never decreases any row's hits. -/
theorem c7_store_invariants (store : Store) (g : Nat → Fin 62) (u id : String) :
    (∀ nid s', Db.add_url store g u = .ok (nid, s') →
       s' = store ++ [UrlRow.mk nid u 0] ∧ (store.wf → s'.wf)) ∧
    (∀ s', Db.add_url_hit store id = .ok s' →
       s'.length = store.length ∧
       (∀ i (h1 : i < store.length) (h2 : i < s'.length),
          (s'.get ⟨i, h2⟩).id = (store.get ⟨i, h1⟩).id ∧
          (s'.get ⟨i, h2⟩).url = (store.get ⟨i, h1⟩).url ∧
          (store.get ⟨i, h1⟩).hits ≤ (s'.get ⟨i, h2⟩).hits) ∧
       (store.wf → s'.wf)) := by
  constructor
  · intro nid s' hok
    unfold Db.add_url at hok
    by_cases hc : (store.any fun r => r.id == Db.generate_id g || r.url == u) = true
    · simp [hc] at hok
    · simp only [hc, if_false, Bool.false_eq_true, ite_false,
        Except.ok.injEq, Prod.mk.injEq] at hok
      obtain ⟨hid, hs⟩ := hok
      subst hid
      subst hs
      refine ⟨rfl, ?_⟩
      intro hwf
      unfold Store.wf at hwf ⊢
      rw [List.pairwise_append]
      refine ⟨hwf, List.pairwise_singleton _ _, ?_⟩
      intro a ha b hb
      have hb' : b = UrlRow.mk (Db.generate_id g) u 0 := by simpa using hb
      subst hb'
      have hna := List.any_eq_false.mp (Bool.eq_false_iff.mpr hc) a ha
      simp only [Bool.or_eq_true, not_or, beq_iff_eq] at hna
      exact ⟨hna.1, hna.2⟩
  · intro s' hok
    have hs : s' = store.map (Db.hitRow id) := by
      simpa [Db.add_url_hit] using hok.symm
    subst hs
    refine ⟨List.length_map store _, ?_, ?_⟩
    · intro i h1 h2
      simp only [List.get_eq_getElem, List.getElem_map]
      exact ⟨hitRow_id _ _, hitRow_url _ _, hits_le_hitRow _ _⟩
    · intro hwf
      unfold Store.wf at hwf ⊢
      rw [List.pairwise_map]
      exact hwf.imp fun hab => by
        simpa [hitRow_id, hitRow_url] using hab

theorem c7_witness :
    Store.wf [UrlRow.mk "AAAAAA" "http://a.b" 0] ∧
    [UrlRow.mk "AAAAAA" "http://a.b" 1].length
      = [UrlRow.mk "AAAAAA" "http://a.b" 0].length :=
  ⟨((c7_store_invariants [] (fun _ => 0) "http://a.b" "AAAAAA").1 "AAAAAA"
      [UrlRow.mk "AAAAAA" "http://a.b" 0] (by rfl)).2 (by decide),
   ((c7_store_invariants [UrlRow.mk "AAAAAA" "http://a.b" 0] (fun _ => 0)
      "http://a.b" "AAAAAA").2
      [UrlRow.mk "AAAAAA" "http://a.b" 1] (by rfl)).1⟩

theorem Db_add_url_eq (store : Store) (g : Nat → Fin 62) (url : String) :
    Db.add_url store g url =
      if store.any fun r => r.id == Db.generate_id g || r.url == url then
        .error .constraintViolation
      else .ok (Db.generate_id g, store ++ [UrlRow.mk (Db.generate_id g) url 0]) := rfl

theorem get_url_by_id_shape_congr (i : String) (s1 : Store) :
    ∀ s2 : Store, shape s1 = shape s2 →
      Db.get_url_by_id s1 i = Db.get_url_by_id s2 i := by
  induction s1 with
  | nil =>
    intro s2 h
    cases s2 with
    | nil => rfl
    | cons b t2 => simp [shape] at h
  | cons a t1 ih =>
    intro s2 h
    cases s2 with
    | nil => simp [shape] at h
    | cons b t2 =>
      simp only [shape, List.map_cons, List.cons.injEq, Prod.mk.injEq] at h
      obtain ⟨⟨hid, hurl⟩, ht⟩ := h
      have ihe := ih t2 ht
      unfold Db.get_url_by_id at ihe ⊢
      by_cases hcnd : (a.id == i) = true
      · have hcnd2 : (b.id == i) = true := by rw [← hid]; exact hcnd
        have e1 : List.find? (fun r : UrlRow => r.id == i) (a :: t1) = some a :=
          List.find?_cons_of_pos _ hcnd
        have e2 : List.find? (fun r : UrlRow => r.id == i) (b :: t2) = some b :=
          List.find?_cons_of_pos _ hcnd2
        rw [e1, e2]
        simp [hurl]
      · have hcnd2 : ¬(b.id == i) = true := by rw [← hid]; exact hcnd
        have e1 : List.find? (fun r : UrlRow => r.id == i) (a :: t1)
            = List.find? (fun r : UrlRow => r.id == i) t1 :=
          List.find?_cons_of_neg _ hcnd
        have e2 : List.find? (fun r : UrlRow => r.id == i) (b :: t2)
            = List.find? (fun r : UrlRow => r.id == i) t2 :=
          List.find?_cons_of_neg _ hcnd2
        rw [e1, e2]
        exact ihe

theorem get_id_by_url_shape_congr (u : String) (s1 : Store) :
    ∀ s2 : Store, shape s1 = shape s2 →
      Db.get_id_by_url s1 u = Db.get_id_by_url s2 u := by
  induction s1 with
  | nil =>
    intro s2 h
    cases s2 with
    | nil => rfl
    | cons b t2 => simp [shape] at h
  | cons a t1 ih =>
    intro s2 h
    cases s2 with
    | nil => simp [shape] at h
    | cons b t2 =>
      simp only [shape, List.map_cons, List.cons.injEq, Prod.mk.injEq] at h
      obtain ⟨⟨hid, hurl⟩, ht⟩ := h
      have ihe := ih t2 ht
      unfold Db.get_id_by_url at ihe ⊢
      by_cases hcnd : (a.url == u) = true
      · have hcnd2 : (b.url == u) = true := by rw [← hurl]; exact hcnd
        have e1 : List.find? (fun r : UrlRow => r.url == u) (a :: t1) = some a :=
          List.find?_cons_of_pos _ hcnd
        have e2 : List.find? (fun r : UrlRow => r.url == u) (b :: t2) = some b :=
          List.find?_cons_of_pos _ hcnd2
        rw [e1, e2]
        simp [hid]
      · have hcnd2 : ¬(b.url == u) = true := by rw [← hurl]; exact hcnd
        have e1 : List.find? (fun r : UrlRow => r.url == u) (a :: t1)
            = List.find? (fun r : UrlRow => r.url == u) t1 :=
          List.find?_cons_of_neg _ hcnd
        have e2 : List.find? (fun r : UrlRow => r.url == u) (b :: t2)
            = List.find? (fun r : UrlRow => r.url == u) t2 :=
          List.find?_cons_of_neg _ hcnd2
        rw [e1, e2]
        exact ihe

theorem constraint_check_shape_congr (gid u : String) (s1 : Store) :
    ∀ s2 : Store, shape s1 = shape s2 →
      (s1.any fun r => r.id == gid || r.url == u)
        = (s2.any fun r => r.id == gid || r.url == u) := by
  induction s1 with
  | nil =>
    intro s2 h
    cases s2 with
    | nil => rfl
    | cons b t2 => simp [shape] at h
  | cons a t1 ih =>
    intro s2 h
    cases s2 with
    | nil => simp [shape] at h
    | cons b t2 =>
      simp only [shape, List.map_cons, List.cons.injEq, Prod.mk.injEq] at h
      obtain ⟨⟨hid, hurl⟩, ht⟩ := h
      rw [List.any_cons, List.any_cons, hid, hurl, ih t2 ht]

/-- C10: the HTTP responses of both endpoints are independent of the
stored hit counts: two stores with the same `(id, url)` pairs but
arbitrary hits give identical responses on any resolve request and any
create-mapping request. -/
theorem c10_responses_ignore_hits (s1 s2 : Store) (g : Nat → Fin 62)
    (root : String) (p : UrlPayload) (i : String)
    (h : shape s1 = shape s2) :
    (get_url s1 i).1 = (get_url s2 i).1 ∧
    (add_url s1 g root p).1 = (add_url s2 g root p).1 := by
  constructor
  · unfold get_url
    rw [get_url_by_id_shape_congr i s1 s2 h]
    cases Db.get_url_by_id s2 i <;> rfl
  · unfold add_url
    cases p.validate with
    | error errs => rfl
    | ok _ =>
      rw [get_id_by_url_shape_congr p.url s1 s2 h]
      cases Db.get_id_by_url s2 p.url with
      | some id => simp [Db.add_url_hit]
      | none =>
        rw [Db_add_url_eq s1 g p.url, Db_add_url_eq s2 g p.url,
            constraint_check_shape_congr (Db.generate_id g) p.url s1 s2 h]
        cases hc : s2.any fun r => r.id == Db.generate_id g || r.url == p.url with
        | true => simp [hc]
        | false => simp [hc, Db.add_url_hit]

theorem c10_witness :
    (get_url [UrlRow.mk "a" "http://x.y" 0] "a").1
      = (get_url [UrlRow.mk "a" "http://x.y" 7] "a").1 ∧
    (add_url [UrlRow.mk "a" "http://x.y" 0] (fun _ => 0)
        "http://localhost" ⟨"http://x.y"⟩).1
      = (add_url [UrlRow.mk "a" "http://x.y" 7] (fun _ => 0)
        "http://localhost" ⟨"http://x.y"⟩).1 :=
  c10_responses_ignore_hits [UrlRow.mk "a" "http://x.y" 0]
    [UrlRow.mk "a" "http://x.y" 7] (fun _ => 0) "http://localhost"
    ⟨"http://x.y"⟩ "a" (by decide)
